import Mathlib

/-!
Verification development for the `pagi-backend-core` repository.

The definitions below are a shallow embedding of the Go sources:
  * `backend-go-agent-planner/main.go` — the `AgentLoop` driver, the
    `tryParseToolCall` plan interpreter, `buildPlannerPrompt`,
    `buildFollowupPrompt`, `storePlaybook`, `storeSessionDelta`,
    `RecordStep`, `PublishStatus` and `PublishNotification`;
  * `backend-go-model-gateway/main.go` — the plan-string normalization
    performed by `GetPlan` (`stripFences` and `normalizeJSON`).

External collaborators (model gateway RPC, memory HTTP service, RAG gRPC,
sandbox gRPC, redis, audit DB) are modelled as oracles: per turn they may
answer or fail, exactly along the error channels the Go code distinguishes.
Every observable action of the driver (audit `RecordStep` rows, redis
publishes, memory-store HTTP posts) is collected into an event trace.
The Go code discards the `error` results of audit writes, memory writes and
notification publishes (`_ = ...` at every call site), so those failures
cannot influence the driver and are not threaded through the embedding.
-/

namespace PagiCore

/-- JSON values as produced by Go `encoding/json` unmarshalling into `any`
(objects become `map[string]any`, arrays `[]any`). Number precision is
irrelevant to every claim, so numbers carry an `Int`. -/
inductive Json : Type where
  | null : Json
  | bool (b : Bool) : Json
  | num (n : Int) : Json
  | str (s : String) : Json
  | arr (elems : List Json) : Json
  | obj (fields : List (String × Json)) : Json

/-- Key lookup in a decoded JSON object (Go `raw["key"]`). Decoded Go maps
have unique keys, so first-match lookup is faithful. -/
def lookup (fields : List (String × Json)) (key : String) : Option Json :=
  match fields.find? (fun kv => kv.1 == key) with
  | some kv => some kv.2
  | none => none

/-- Go `unicode.IsSpace` restricted to the ASCII whitespace characters
(space, tab, newline, carriage return, vertical tab, form feed). -/
def goIsSpace (c : Char) : Bool :=
  c = ' ' || c = '\t' || c = '\n' || c = '\r' || c = '\x0b' || c = '\x0c'

/-- Go `strings.TrimSpace`. -/
def goTrimSpace (s : String) : String :=
  String.mk (((s.data.dropWhile goIsSpace).reverse.dropWhile goIsSpace).reverse)

/-- `ToolCall` from `backend-go-agent-planner` (`agent` package).
`args = none` models the Go `nil` map produced by a failed type assertion
`toolObj["args"].(map[string]any)`; `args = some a` models a non-nil map.
A Go nil map is observably distinct from an empty map: `json.Marshal`
renders it as `null`, not `\x7b\x7d`. -/
structure ToolCall where
  name : String
  args : Option (List (String × Json))
  raw : List (String × Json)

/-- The comma-ok assertion `toolObj["args"].(map[string]any)` of
`tryParseToolCall`: the map when the field holds one, the nil map
otherwise. -/
def argsOfTool (toolObj : List (String × Json)) : Option (List (String × Json)) :=
  match lookup toolObj "args" with
  | some (Json.obj a) => some a
  | _ => none

/-- `tryParseToolCall` from `backend-go-agent-planner/main.go` (lines
501-518). The argument is the result of `json.Unmarshal(planJSON, &raw)`
with `raw : map[string]any`: `none` when the text is not a JSON object
(parse error or non-object top level), `some raw` otherwise. -/
def tryParseToolCall (parsed : Option (List (String × Json))) : Option ToolCall :=
  match parsed with
  | none => none
  | some raw =>
    match lookup raw "tool" with
    | some (Json.obj toolObj) =>
      let name :=
        match lookup toolObj "name" with
        | some (Json.str s) => s
        | _ => ""
      let args : Option (List (String × Json)) := argsOfTool toolObj
      if goTrimSpace name = "" then none
      else some { name := name, args := args, raw := raw }
    | _ => none

/-- A RAG match (`pb.RAGMatch` getters used by `buildPlannerPrompt`). -/
structure RagMatch where
  knowledgeBase : String
  id : String
  text : String

/-- Go `m["key"].(string)` with the comma-ok form: the string when the
field holds one, `""` otherwise. -/
def getStrField (m : List (String × Json)) (key : String) : String :=
  match lookup m key with
  | some (Json.str s) => s
  | _ => ""

/-- The `role != "" || content != ""` guard of the history loop in
`buildPlannerPrompt`. -/
def msgVisible (m : List (String × Json)) : Bool :=
  getStrField m "role" != "" || getStrField m "content" != ""

/-- One rendered session-history line (`role + ": " + content + "\n"`). -/
def histLine (m : List (String × Json)) : String :=
  getStrField m "role" ++ ": " ++ getStrField m "content" ++ "\n"

/-- One rendered RAG match block. -/
def ragBlock (m : RagMatch) : String :=
  "**" ++ m.knowledgeBase ++ "**\n" ++ "ID: " ++ m.id ++ "\n" ++ "Text: " ++ m.text ++ "\n---\n"

/-- Sequential `strings.Builder` writes. -/
def concatAll : List String → String
  | [] => ""
  | s :: rest => s ++ concatAll rest

/-- `buildPlannerPrompt` from `backend-go-agent-planner/main.go` (lines
469-495). `rag = none` models a nil `*pb.RAGContextResponse` (the value the
loop holds after a failed `GetRAGContext` call). -/
def buildPlannerPrompt (userPrompt : String) (history : List (List (String × Json)))
    (rag : Option (List RagMatch)) : String :=
  "<session_history>\n"
    ++ concatAll (history.map (fun m => if msgVisible m then histLine m else ""))
    ++ "</session_history>\n\n"
    ++ "<rag_context>\n"
    ++ (match rag with
        | some ms => concatAll (ms.map ragBlock)
        | none => "")
    ++ "</rag_context>\n\n"
    ++ "<user_prompt>\n"
    ++ userPrompt
    ++ "\n</user_prompt>\n"

/-- `buildFollowupPrompt` from `backend-go-agent-planner/main.go` (lines
497-499). -/
def buildFollowupPrompt (originalPrompt plan toolResult : String) : String :=
  originalPrompt ++ "\n\n<plan>\n" ++ plan ++ "\n</plan>\n\n<tool_result>\n"
    ++ toolResult ++ "\n</tool_result>\n"

/-- Observable side effects of one `AgentLoop` run, in program order.
`planStart` … `toolError` are the audit `RecordStep` calls; `statusNotif`
and `resultNotif` are the redis publishes; `sessionDelta` is a
`POST /memory/store`; `playbookPost` is a `POST /memory/playbook`.
The constant `session_id` and trace id carried by every row are omitted. -/
inductive Event : Type where
  | planStart (prompt : String)
  | statusNotif (status : String)
  | planModelResponse (plan : String)
  | planEnd (result : String)
  | planError (err : String)
  | toolCall (tool : String) (args : Option (List (String × Json)))
  | toolResult (tool : String) (output : String)
  | toolError (tool : String) (err : String)
  | sessionDelta (user : String) (assistant : String)
  | playbookPost (prompt : String) (seq : List (String × String))
  | resultNotif (result : String)

/-- The audit `event_type` recorded by an event, when the event is an audit
row (a `RecordStep` call). -/
def Event.auditType : Event → Option String
  | .planStart _ => some "PLAN_START"
  | .planModelResponse _ => some "PLAN_MODEL_RESPONSE"
  | .planEnd _ => some "PLAN_END"
  | .planError _ => some "PLAN_ERROR"
  | .toolCall _ _ => some "TOOL_CALL"
  | .toolResult _ _ => some "TOOL_RESULT"
  | .toolError _ _ => some "TOOL_ERROR"
  | _ => none

/-- A notification published on `pagi_notifications`: a lifecycle form
(`PublishStatus`) or a result form (`PublishNotification`). -/
inductive NotifMsg : Type where
  | status (s : String)
  | result (r : String)
  deriving DecidableEq, Repr

/-- Notification projection of an event. -/
def Event.notifMsg : Event → Option NotifMsg
  | .statusNotif s => some (NotifMsg.status s)
  | .resultNotif r => some (NotifMsg.result r)
  | _ => none

/-- Session-delta projection of an event (user, assistant). -/
def Event.delta : Event → Option (String × String)
  | .sessionDelta u a => some (u, a)
  | _ => none

/-- Whether an event is a `POST /memory/playbook`. -/
def Event.isPlaybookPost : Event → Bool
  | .playbookPost _ _ => true
  | _ => false

/-- Audit `event_type` stream of a trace. -/
def audits (evs : List Event) : List String := evs.filterMap Event.auditType

/-- Notification stream of a trace. -/
def notifs (evs : List Event) : List NotifMsg := evs.filterMap Event.notifMsg

/-- Session-delta stream of a trace. -/
def deltas (evs : List Event) : List (String × String) := evs.filterMap Event.delta

/-- The driver's per-request mutable state: the evolving `prompt` variable,
`playbookSeq` and `hadToolStep` from `AgentLoop`. -/
structure LoopState where
  prompt : String
  playbookSeq : List (String × String)
  hadToolStep : Bool

/-- One turn's collaborator behavior. `history` is the
`fetchSessionHistory` result; `rag` the `GetRAGContext` RPC keyed by the
query (the current working prompt); `plan` the `GetPlan` RPC keyed by the
planner input; `tool` the `ExecuteTool` RPC keyed by tool name and args
(the sandbox call is modelled at the decoded-args level; on success it
yields the re-serialized `\x7bstatus,stdout,stderr\x7d` string the Go code
builds before returning). -/
structure TurnOracle where
  history : Except String (List (List (String × Json)))
  rag : String → Except String (List RagMatch)
  plan : String → Except String String
  tool : String → List (String × Json) → Except String String

/-- How one `AgentLoop` run ends: a model-authored final answer, a fatal
`GetPlan` error, or turn-budget exhaustion. -/
inductive LoopOut : Type where
  | final (plan : String)
  | failed (err : String)
  | budget
  deriving DecidableEq, Repr

/-- Result of one loop iteration: continue with a new state, or stop. -/
inductive TurnStep : Type where
  | next (st : LoopState)
  | done (out : LoopOut) (st : LoopState)

/-- `history, _ := p.fetchSessionHistory(...)`: a failed fetch leaves the
nil slice, ranged over as empty. -/
def historyOrEmpty : Except String (List (List (String × Json))) → List (List (String × Json))
  | .ok h => h
  | .error _ => []

/-- `rag, _ := p.memoryClient.GetRAGContext(...)`: a failed fetch leaves a
nil response pointer. -/
def ragOrNone : Except String (List RagMatch) → Option (List RagMatch)
  | .ok r => some r
  | .error _ => none

/-- Go `%q` of a tool name (quote escaping of exotic names is immaterial
to every claim). -/
def goQuote (s : String) : String := "\"" ++ s ++ "\""

/-- The error wrapping `fmt.Errorf("ExecuteTool(%q): %w", toolName, err)`
in `executeToolGRPC`. -/
def wrapToolErr (name e : String) : String :=
  "ExecuteTool(" ++ goQuote name ++ "): " ++ e

/-- `storePlaybook` from `backend-go-agent-planner/main.go` (lines
561-595): sequences shorter than 3 are skipped; otherwise the POST is
issued (its HTTP outcome is discarded by the caller). -/
def storePlaybookEvents (prompt : String) (seq : List (String × String)) : List Event :=
  if seq.length < 3 then [] else [Event.playbookPost prompt seq]

/-- One iteration of the `for turn := 1; turn <= maxTurns` loop in
`AgentLoop` (lines 409-464): context fetches, `GetPlan`, interpretation,
and either the finalize path, the tool-error feedback path, or the
tool-success feedback path. `jp` is `json.Unmarshal` into
`map[string]any` (stdlib, supplied as an oracle). -/
def runTurn (jp : String → Option (List (String × Json))) (basePrompt : String)
    (o : TurnOracle) (st : LoopState) : List Event × TurnStep :=
  match o.plan (buildPlannerPrompt st.prompt (historyOrEmpty o.history)
      (ragOrNone (o.rag st.prompt))) with
  | .error e =>
      ([Event.planError e], TurnStep.done (LoopOut.failed ("GetPlan: " ++ e)) st)
  | .ok plan =>
    match tryParseToolCall (jp plan) with
    | none =>
        let seq := st.playbookSeq ++ [("assistant", plan)]
        ([Event.planModelResponse plan, Event.planEnd plan]
           ++ (if st.hadToolStep then storePlaybookEvents basePrompt seq else [])
           ++ [Event.sessionDelta st.prompt plan, Event.resultNotif plan,
               Event.statusNotif "COMPLETED"],
         TurnStep.done (LoopOut.final plan) { st with playbookSeq := seq })
    | some tc =>
      match o.tool tc.name (tc.args.getD []) with
      | .error e =>
          ([Event.planModelResponse plan, Event.toolCall tc.name tc.args,
            Event.toolError tc.name (wrapToolErr tc.name e)],
           TurnStep.next { st with
             prompt := st.prompt ++ "\n\nTool error: " ++ wrapToolErr tc.name e })
      | .ok toolOut =>
          ([Event.planModelResponse plan, Event.toolCall tc.name tc.args,
            Event.toolResult tc.name toolOut,
            Event.sessionDelta "[tool-plan]" plan,
            Event.sessionDelta "[tool-output]" toolOut],
           TurnStep.next
             { prompt := buildFollowupPrompt st.prompt plan toolOut,
               playbookSeq := st.playbookSeq ++ [("assistant", plan), ("tool_result", toolOut)],
               hadToolStep := true })

/-- The turn loop, fueled by the remaining turn count; `turn` is the
1-based loop counter used to index the per-turn oracle. Returns the trace,
the outcome, and the driver state at exit. -/
def agentLoopAux (jp : String → Option (List (String × Json))) (basePrompt : String)
    (turns : Nat → TurnOracle) : Nat → Nat → LoopState → List Event × LoopOut × LoopState
  | 0, _, st => ([], LoopOut.budget, st)
  | fuel + 1, turn, st =>
    match runTurn jp basePrompt (turns turn) st with
    | (evs, TurnStep.done out st') => (evs, out, st')
    | (evs, TurnStep.next st') =>
      let r := agentLoopAux jp basePrompt turns fuel (turn + 1) st'
      (evs ++ r.1, r.2.1, r.2.2)

/-- Collaborator behavior for a whole run: the stdlib JSON parse used by
the interpreter, and one `TurnOracle` per turn index. -/
structure Oracle where
  jparse : String → Option (List (String × Json))
  turns : Nat → TurnOracle

/-- The `maxTurns <= 0 → 3` coercion at the top of `AgentLoop`
(lines 404-407). -/
def effMaxTurns (m : Int) : Nat := if m ≤ 0 then 3 else m.toNat

/-- The budget sentinel literal returned at line 466. -/
def maxTurnsSentinel : String := "Max turns reached; unable to complete request."

/-- `AgentLoop` from `backend-go-agent-planner/main.go` (lines 393-467),
exposing the structured outcome and final state alongside the trace:
record `PLAN_START`, publish `STARTED`, seed the playbook sequence with
the user prompt, then run up to `maxTurns` turns. -/
def agentLoopFull (o : Oracle) (maxTurns : Int) (prompt sessionID : String) :
    List Event × LoopOut × LoopState :=
  let st0 : LoopState :=
    { prompt := prompt, playbookSeq := [("user", prompt)], hadToolStep := false }
  let r := agentLoopAux o.jparse prompt o.turns (effMaxTurns maxTurns) 1 st0
  ([Event.planStart prompt, Event.statusNotif "STARTED"] ++ r.1, r.2.1, r.2.2)

/-- The Go-visible `(string, error)` return of `AgentLoop`: budget
exhaustion maps to the sentinel string with a nil error. -/
def AgentLoop (o : Oracle) (maxTurns : Int) (prompt sessionID : String) :
    List Event × Except String String :=
  let r := agentLoopFull o maxTurns prompt sessionID
  (r.1,
   match r.2.1 with
   | LoopOut.final p => Except.ok p
   | LoopOut.failed e => Except.error e
   | LoopOut.budget => Except.ok maxTurnsSentinel)

/-! ## Model gateway: the plan normalization inside `GetPlan` -/

/-- The anonymous struct `GetPlan` decodes candidate JSON into:
`Steps []string` and `Prompt string`. -/
structure DecodedPlan where
  steps : List String
  prompt : String

/-- Indices at which `pat` occurs in `l` (substring occurrences). -/
def subIndices (pat l : List Char) : List Nat :=
  (List.range (l.length + 1)).filter (fun i => pat.isPrefixOf (l.drop i))

/-- Go `strings.Index` (first occurrence), at character granularity. -/
def goIndex (s pat : String) : Option Nat := (subIndices pat.data s.data).head?

/-- Go `strings.LastIndex` (last occurrence), at character granularity. -/
def goLastIndex (s pat : String) : Option Nat := (subIndices pat.data s.data).getLast?

/-- `stripFences` from `backend-go-model-gateway/main.go` (lines 169-183):
drop a leading code-fence line and the trailing fence. -/
def stripFences (s : String) : String :=
  let s := goTrimSpace s
  if s.startsWith "```" then
    let s1 :=
      match goIndex s "\n" with
      | some i => String.mk (s.data.drop (i + 1))
      | none => s
    let s2 :=
      match goLastIndex s1 "```" with
      | some e => String.mk (s1.data.take e)
      | none => s1
    goTrimSpace s2
  else s

/-- `normalizeJSON` from `backend-go-model-gateway/main.go` (lines
185-207): accept only a brace-prefixed candidate that decodes with a
non-empty `steps`, and rebuild the payload with the gateway's provider and
the request prompt. `decode` is the stdlib `json.Unmarshal` into the
decode struct, supplied as an oracle. -/
def normalizeJSON (decode : String → Option DecodedPlan) (provider reqPrompt raw : String) :
    Option Json :=
  let candidate := goTrimSpace raw
  if candidate.startsWith "\x7b" then
    match decode candidate with
    | none => none
    | some d =>
      if d.steps.length = 0 then none
      else some (Json.obj [("model_type", Json.str provider),
                           ("steps", Json.arr (d.steps.map Json.str)),
                           ("prompt", Json.str reqPrompt)])
  else none

/-- The normalization pipeline of `GetPlan` (lines 163-227): try raw JSON,
then fenced JSON, else wrap the trimmed content as the single step. The
result is the JSON value whose `json.Marshal` is the returned plan
string. -/
def getPlanNormalize (decode : String → Option DecodedPlan) (provider reqPrompt content : String) :
    Json :=
  let trimmed := goTrimSpace content
  match normalizeJSON decode provider reqPrompt trimmed with
  | some j => j
  | none =>
    match normalizeJSON decode provider reqPrompt (stripFences trimmed) with
    | some j => j
    | none =>
        Json.obj [("model_type", Json.str provider),
                  ("steps", Json.arr [Json.str trimmed]),
                  ("prompt", Json.str reqPrompt)]

/-! ## Branch evaluation lemmas for one loop turn -/

/-- The planner input a turn sends to `GetPlan`. -/
def plannerInputOf (o : TurnOracle) (st : LoopState) : String :=
  buildPlannerPrompt st.prompt (historyOrEmpty o.history) (ragOrNone (o.rag st.prompt))

/-- Events of the finalize path of a turn. -/
def finalizeEvs (st : LoopState) (bp plan : String) : List Event :=
  [Event.planModelResponse plan, Event.planEnd plan]
    ++ (if st.hadToolStep then storePlaybookEvents bp (st.playbookSeq ++ [("assistant", plan)])
        else [])
    ++ [Event.sessionDelta st.prompt plan, Event.resultNotif plan, Event.statusNotif "COMPLETED"]

/-- Events of the tool-error path of a turn. -/
def toolErrEvs (plan : String) (tc : ToolCall) (e : String) : List Event :=
  [Event.planModelResponse plan, Event.toolCall tc.name tc.args,
   Event.toolError tc.name (wrapToolErr tc.name e)]

/-- Events of the tool-success path of a turn. -/
def toolOkEvs (plan : String) (tc : ToolCall) (toolOut : String) : List Event :=
  [Event.planModelResponse plan, Event.toolCall tc.name tc.args,
   Event.toolResult tc.name toolOut,
   Event.sessionDelta "[tool-plan]" plan, Event.sessionDelta "[tool-output]" toolOut]

theorem runTurn_planError (jp : String → Option (List (String × Json))) (bp : String)
    (o : TurnOracle) (st : LoopState) (e : String)
    (h : o.plan (plannerInputOf o st) = Except.error e) :
    runTurn jp bp o st =
      ([Event.planError e], TurnStep.done (LoopOut.failed ("GetPlan: " ++ e)) st) := by
  unfold runTurn
  rw [show buildPlannerPrompt st.prompt (historyOrEmpty o.history) (ragOrNone (o.rag st.prompt))
        = plannerInputOf o st from rfl, h]

theorem runTurn_finalize (jp : String → Option (List (String × Json))) (bp : String)
    (o : TurnOracle) (st : LoopState) (plan : String)
    (h : o.plan (plannerInputOf o st) = Except.ok plan)
    (hc : tryParseToolCall (jp plan) = none) :
    runTurn jp bp o st =
      (finalizeEvs st bp plan,
       TurnStep.done (LoopOut.final plan)
         { st with playbookSeq := st.playbookSeq ++ [("assistant", plan)] }) := by
  unfold runTurn
  rw [show buildPlannerPrompt st.prompt (historyOrEmpty o.history) (ragOrNone (o.rag st.prompt))
        = plannerInputOf o st from rfl, h]
  simp only [hc]
  rfl

theorem runTurn_toolError (jp : String → Option (List (String × Json))) (bp : String)
    (o : TurnOracle) (st : LoopState) (plan : String) (tc : ToolCall) (e : String)
    (h : o.plan (plannerInputOf o st) = Except.ok plan)
    (hc : tryParseToolCall (jp plan) = some tc)
    (ht : o.tool tc.name (tc.args.getD []) = Except.error e) :
    runTurn jp bp o st =
      (toolErrEvs plan tc e,
       TurnStep.next { st with
         prompt := st.prompt ++ "\n\nTool error: " ++ wrapToolErr tc.name e }) := by
  unfold runTurn
  rw [show buildPlannerPrompt st.prompt (historyOrEmpty o.history) (ragOrNone (o.rag st.prompt))
        = plannerInputOf o st from rfl, h]
  simp only [hc, ht]
  rfl

theorem runTurn_toolOk (jp : String → Option (List (String × Json))) (bp : String)
    (o : TurnOracle) (st : LoopState) (plan : String) (tc : ToolCall) (toolOut : String)
    (h : o.plan (plannerInputOf o st) = Except.ok plan)
    (hc : tryParseToolCall (jp plan) = some tc)
    (ht : o.tool tc.name (tc.args.getD []) = Except.ok toolOut) :
    runTurn jp bp o st =
      (toolOkEvs plan tc toolOut,
       TurnStep.next
         { prompt := buildFollowupPrompt st.prompt plan toolOut,
           playbookSeq := st.playbookSeq ++ [("assistant", plan), ("tool_result", toolOut)],
           hadToolStep := true }) := by
  unfold runTurn
  rw [show buildPlannerPrompt st.prompt (historyOrEmpty o.history) (ragOrNone (o.rag st.prompt))
        = plannerInputOf o st from rfl, h]
  simp only [hc, ht]
  rfl

theorem aux_succ_planError (jp : String → Option (List (String × Json))) (bp : String)
    (turns : Nat → TurnOracle) (fuel turn : Nat) (st : LoopState) (e : String)
    (hp : (turns turn).plan (plannerInputOf (turns turn) st) = Except.error e) :
    agentLoopAux jp bp turns (fuel + 1) turn st =
      ([Event.planError e], LoopOut.failed ("GetPlan: " ++ e), st) := by
  simp only [agentLoopAux, runTurn_planError jp bp (turns turn) st e hp]

theorem aux_succ_finalize (jp : String → Option (List (String × Json))) (bp : String)
    (turns : Nat → TurnOracle) (fuel turn : Nat) (st : LoopState) (plan : String)
    (hp : (turns turn).plan (plannerInputOf (turns turn) st) = Except.ok plan)
    (hc : tryParseToolCall (jp plan) = none) :
    agentLoopAux jp bp turns (fuel + 1) turn st =
      (finalizeEvs st bp plan, LoopOut.final plan,
       { st with playbookSeq := st.playbookSeq ++ [("assistant", plan)] }) := by
  simp only [agentLoopAux, runTurn_finalize jp bp (turns turn) st plan hp hc]

theorem aux_succ_toolError (jp : String → Option (List (String × Json))) (bp : String)
    (turns : Nat → TurnOracle) (fuel turn : Nat) (st : LoopState) (plan : String)
    (tc : ToolCall) (e : String)
    (hp : (turns turn).plan (plannerInputOf (turns turn) st) = Except.ok plan)
    (hc : tryParseToolCall (jp plan) = some tc)
    (ht : (turns turn).tool tc.name (tc.args.getD []) = Except.error e) :
    agentLoopAux jp bp turns (fuel + 1) turn st =
      (toolErrEvs plan tc e
         ++ (agentLoopAux jp bp turns fuel (turn + 1)
              { st with prompt := st.prompt ++ "\n\nTool error: " ++ wrapToolErr tc.name e }).1,
       (agentLoopAux jp bp turns fuel (turn + 1)
          { st with prompt := st.prompt ++ "\n\nTool error: " ++ wrapToolErr tc.name e }).2) := by
  simp only [agentLoopAux, runTurn_toolError jp bp (turns turn) st plan tc e hp hc ht]

theorem aux_succ_toolOk (jp : String → Option (List (String × Json))) (bp : String)
    (turns : Nat → TurnOracle) (fuel turn : Nat) (st : LoopState) (plan : String)
    (tc : ToolCall) (toolOut : String)
    (hp : (turns turn).plan (plannerInputOf (turns turn) st) = Except.ok plan)
    (hc : tryParseToolCall (jp plan) = some tc)
    (ht : (turns turn).tool tc.name (tc.args.getD []) = Except.ok toolOut) :
    agentLoopAux jp bp turns (fuel + 1) turn st =
      (toolOkEvs plan tc toolOut
         ++ (agentLoopAux jp bp turns fuel (turn + 1)
              { prompt := buildFollowupPrompt st.prompt plan toolOut,
                playbookSeq := st.playbookSeq ++ [("assistant", plan), ("tool_result", toolOut)],
                hadToolStep := true }).1,
       (agentLoopAux jp bp turns fuel (turn + 1)
          { prompt := buildFollowupPrompt st.prompt plan toolOut,
            playbookSeq := st.playbookSeq ++ [("assistant", plan), ("tool_result", toolOut)],
            hadToolStep := true }).2) := by
  simp only [agentLoopAux, runTurn_toolOk jp bp (turns turn) st plan tc toolOut hp hc ht]

/-! ## Projection helpers -/

theorem audits_append (a b : List Event) : audits (a ++ b) = audits a ++ audits b :=
  List.filterMap_append a b Event.auditType

theorem notifs_append (a b : List Event) : notifs (a ++ b) = notifs a ++ notifs b :=
  List.filterMap_append a b Event.notifMsg

theorem deltas_append (a b : List Event) : deltas (a ++ b) = deltas a ++ deltas b :=
  List.filterMap_append a b Event.delta

theorem audits_storePlaybook (bp : String) (sq : List (String × String)) :
    audits (storePlaybookEvents bp sq) = [] := by
  unfold storePlaybookEvents
  split <;> rfl

theorem notifs_storePlaybook (bp : String) (sq : List (String × String)) :
    notifs (storePlaybookEvents bp sq) = [] := by
  unfold storePlaybookEvents
  split <;> rfl

theorem deltas_storePlaybook (bp : String) (sq : List (String × String)) :
    deltas (storePlaybookEvents bp sq) = [] := by
  unfold storePlaybookEvents
  split <;> rfl

theorem any_post_storePlaybook (bp : String) (sq : List (String × String)) :
    (storePlaybookEvents bp sq).any Event.isPlaybookPost = decide (3 ≤ sq.length) := by
  unfold storePlaybookEvents
  split
  next h =>
    have h' : ¬ (3 ≤ sq.length) := by omega
    simp [h']
  next h =>
    have h' : 3 ≤ sq.length := by omega
    simp [h', Event.isPlaybookPost]

theorem audits_finalize (st : LoopState) (bp plan : String) :
    audits (finalizeEvs st bp plan) = ["PLAN_MODEL_RESPONSE", "PLAN_END"] := by
  unfold finalizeEvs
  rw [audits_append, audits_append]
  have h1 : audits (if st.hadToolStep then
      storePlaybookEvents bp (st.playbookSeq ++ [("assistant", plan)]) else []) = [] := by
    split
    · exact audits_storePlaybook _ _
    · rfl
  rw [h1]
  rfl

theorem notifs_finalize (st : LoopState) (bp plan : String) :
    notifs (finalizeEvs st bp plan) = [NotifMsg.result plan, NotifMsg.status "COMPLETED"] := by
  unfold finalizeEvs
  rw [notifs_append, notifs_append]
  have h1 : notifs (if st.hadToolStep then
      storePlaybookEvents bp (st.playbookSeq ++ [("assistant", plan)]) else []) = [] := by
    split
    · exact notifs_storePlaybook _ _
    · rfl
  rw [h1]
  rfl

theorem deltas_finalize (st : LoopState) (bp plan : String) :
    deltas (finalizeEvs st bp plan) = [(st.prompt, plan)] := by
  unfold finalizeEvs
  rw [deltas_append, deltas_append]
  have h1 : deltas (if st.hadToolStep then
      storePlaybookEvents bp (st.playbookSeq ++ [("assistant", plan)]) else []) = [] := by
    split
    · exact deltas_storePlaybook _ _
    · rfl
  rw [h1]
  rfl

theorem any_post_finalize (st : LoopState) (bp plan : String) :
    (finalizeEvs st bp plan).any Event.isPlaybookPost =
      (st.hadToolStep && decide (3 ≤ (st.playbookSeq ++ [("assistant", plan)]).length)) := by
  unfold finalizeEvs
  rw [List.any_append, List.any_append]
  have h1 : (if st.hadToolStep then
      storePlaybookEvents bp (st.playbookSeq ++ [("assistant", plan)]) else []).any
        Event.isPlaybookPost =
      (st.hadToolStep && decide (3 ≤ (st.playbookSeq ++ [("assistant", plan)]).length)) := by
    cases h : st.hadToolStep with
    | false => simp [h]
    | true => simp [h, any_post_storePlaybook]
  rw [h1]
  simp [Event.isPlaybookPost]

theorem audits_toolErr (plan : String) (tc : ToolCall) (e : String) :
    audits (toolErrEvs plan tc e) = ["PLAN_MODEL_RESPONSE", "TOOL_CALL", "TOOL_ERROR"] := rfl

theorem audits_toolOk (plan : String) (tc : ToolCall) (toolOut : String) :
    audits (toolOkEvs plan tc toolOut) =
      ["PLAN_MODEL_RESPONSE", "TOOL_CALL", "TOOL_RESULT"] := rfl

theorem notifs_toolErr (plan : String) (tc : ToolCall) (e : String) :
    notifs (toolErrEvs plan tc e) = [] := rfl

theorem notifs_toolOk (plan : String) (tc : ToolCall) (toolOut : String) :
    notifs (toolOkEvs plan tc toolOut) = [] := rfl

theorem deltas_toolErr (plan : String) (tc : ToolCall) (e : String) :
    deltas (toolErrEvs plan tc e) = [] := rfl

theorem deltas_toolOk (plan : String) (tc : ToolCall) (toolOut : String) :
    deltas (toolOkEvs plan tc toolOut) =
      [("[tool-plan]", plan), ("[tool-output]", toolOut)] := rfl

theorem any_post_toolErr (plan : String) (tc : ToolCall) (e : String) :
    (toolErrEvs plan tc e).any Event.isPlaybookPost = false := rfl

theorem any_post_toolOk (plan : String) (tc : ToolCall) (toolOut : String) :
    (toolOkEvs plan tc toolOut).any Event.isPlaybookPost = false := rfl

/-! ## Inner-loop invariants, by induction on the remaining fuel -/

/-- Terminal structure of an inner-loop trace: no `PLAN_START` row, and the
terminal row pattern of the audit stream is determined by the outcome. -/
def terminalShape (evs : List Event) (out : LoopOut) : Prop :=
  (audits evs).count "PLAN_START" = 0 ∧
  match out with
  | LoopOut.budget =>
      (audits evs).count "PLAN_END" = 0 ∧ (audits evs).count "PLAN_ERROR" = 0
  | LoopOut.final _ =>
      ∃ pre, audits evs = pre ++ ["PLAN_END"] ∧
        pre.count "PLAN_END" = 0 ∧ pre.count "PLAN_ERROR" = 0
  | LoopOut.failed _ =>
      ∃ pre, audits evs = pre ++ ["PLAN_ERROR"] ∧
        pre.count "PLAN_END" = 0 ∧ pre.count "PLAN_ERROR" = 0

theorem terminalShape_prepend (evs rest : List Event) (out : LoopOut)
    (hS : (audits evs).count "PLAN_START" = 0)
    (hE : (audits evs).count "PLAN_END" = 0)
    (hR : (audits evs).count "PLAN_ERROR" = 0)
    (h : terminalShape rest out) :
    terminalShape (evs ++ rest) out := by
  obtain ⟨h1, h2⟩ := h
  refine ⟨by rw [audits_append, List.count_append, hS, h1], ?_⟩
  cases out with
  | budget =>
    obtain ⟨he, hr⟩ := h2
    exact ⟨by rw [audits_append, List.count_append, hE, he],
           by rw [audits_append, List.count_append, hR, hr]⟩
  | final p =>
    obtain ⟨pre, hpre, he, hr⟩ := h2
    exact ⟨audits evs ++ pre,
           by rw [audits_append, hpre, List.append_assoc],
           by rw [List.count_append, hE, he],
           by rw [List.count_append, hR, hr]⟩
  | failed e =>
    obtain ⟨pre, hpre, he, hr⟩ := h2
    exact ⟨audits evs ++ pre,
           by rw [audits_append, hpre, List.append_assoc],
           by rw [List.count_append, hE, he],
           by rw [List.count_append, hR, hr]⟩

theorem aux_terminal (jp : String → Option (List (String × Json))) (bp : String)
    (turns : Nat → TurnOracle) :
    ∀ fuel turn st, terminalShape (agentLoopAux jp bp turns fuel turn st).1
      (agentLoopAux jp bp turns fuel turn st).2.1 := by
  intro fuel
  induction fuel with
  | zero =>
    intro turn st
    exact ⟨rfl, rfl, rfl⟩
  | succ n ih =>
    intro turn st
    cases hp : (turns turn).plan (plannerInputOf (turns turn) st) with
    | error e =>
      rw [aux_succ_planError jp bp turns n turn st e hp]
      exact ⟨rfl, ⟨[], rfl, rfl, rfl⟩⟩
    | ok plan =>
      cases hc : tryParseToolCall (jp plan) with
      | none =>
        rw [aux_succ_finalize jp bp turns n turn st plan hp hc]
        refine ⟨?_, ⟨["PLAN_MODEL_RESPONSE"], ?_, ?_, ?_⟩⟩
        · rw [audits_finalize]
          decide
        · rw [audits_finalize]
          rfl
        · decide
        · decide
      | some tc =>
        cases ht : (turns turn).tool tc.name (tc.args.getD []) with
        | error e =>
          rw [aux_succ_toolError jp bp turns n turn st plan tc e hp hc ht]
          exact terminalShape_prepend _ _ _
            (by rw [audits_toolErr]; decide)
            (by rw [audits_toolErr]; decide)
            (by rw [audits_toolErr]; decide)
            (ih (turn + 1) _)
        | ok toolOut =>
          rw [aux_succ_toolOk jp bp turns n turn st plan tc toolOut hp hc ht]
          exact terminalShape_prepend _ _ _
            (by rw [audits_toolOk]; decide)
            (by rw [audits_toolOk]; decide)
            (by rw [audits_toolOk]; decide)
            (ih (turn + 1) _)

theorem aux_notifs (jp : String → Option (List (String × Json))) (bp : String)
    (turns : Nat → TurnOracle) :
    ∀ fuel turn st, notifs (agentLoopAux jp bp turns fuel turn st).1 =
      (match (agentLoopAux jp bp turns fuel turn st).2.1 with
       | LoopOut.final p => [NotifMsg.result p, NotifMsg.status "COMPLETED"]
       | _ => []) := by
  intro fuel
  induction fuel with
  | zero =>
    intro turn st
    rfl
  | succ n ih =>
    intro turn st
    cases hp : (turns turn).plan (plannerInputOf (turns turn) st) with
    | error e =>
      rw [aux_succ_planError jp bp turns n turn st e hp]
      rfl
    | ok plan =>
      cases hc : tryParseToolCall (jp plan) with
      | none =>
        rw [aux_succ_finalize jp bp turns n turn st plan hp hc]
        exact notifs_finalize st bp plan
      | some tc =>
        cases ht : (turns turn).tool tc.name (tc.args.getD []) with
        | error e =>
          rw [aux_succ_toolError jp bp turns n turn st plan tc e hp hc ht]
          rw [show ((toolErrEvs plan tc e
                ++ (agentLoopAux jp bp turns n (turn + 1)
                    { st with prompt := st.prompt ++ "\n\nTool error: "
                        ++ wrapToolErr tc.name e }).1,
                (agentLoopAux jp bp turns n (turn + 1)
                    { st with prompt := st.prompt ++ "\n\nTool error: "
                        ++ wrapToolErr tc.name e }).2)).1
              = toolErrEvs plan tc e
                ++ (agentLoopAux jp bp turns n (turn + 1)
                    { st with prompt := st.prompt ++ "\n\nTool error: "
                        ++ wrapToolErr tc.name e }).1 from rfl]
          rw [notifs_append, notifs_toolErr]
          rw [List.nil_append]
          exact ih (turn + 1) _
        | ok toolOut =>
          rw [aux_succ_toolOk jp bp turns n turn st plan tc toolOut hp hc ht]
          rw [show ((toolOkEvs plan tc toolOut
                ++ (agentLoopAux jp bp turns n (turn + 1)
                    { prompt := buildFollowupPrompt st.prompt plan toolOut,
                      playbookSeq := st.playbookSeq
                        ++ [("assistant", plan), ("tool_result", toolOut)],
                      hadToolStep := true }).1,
                (agentLoopAux jp bp turns n (turn + 1)
                    { prompt := buildFollowupPrompt st.prompt plan toolOut,
                      playbookSeq := st.playbookSeq
                        ++ [("assistant", plan), ("tool_result", toolOut)],
                      hadToolStep := true }).2)).1
              = toolOkEvs plan tc toolOut
                ++ (agentLoopAux jp bp turns n (turn + 1)
                    { prompt := buildFollowupPrompt st.prompt plan toolOut,
                      playbookSeq := st.playbookSeq
                        ++ [("assistant", plan), ("tool_result", toolOut)],
                      hadToolStep := true }).1 from rfl]
          rw [notifs_append, notifs_toolOk]
          rw [List.nil_append]
          exact ih (turn + 1) _

theorem aux_playbook (jp : String → Option (List (String × Json))) (bp : String)
    (turns : Nat → TurnOracle) :
    ∀ fuel turn st,
      ((agentLoopAux jp bp turns fuel turn st).1.any Event.isPlaybookPost = true ↔
        ((∃ p, (agentLoopAux jp bp turns fuel turn st).2.1 = LoopOut.final p) ∧
         (agentLoopAux jp bp turns fuel turn st).2.2.hadToolStep = true ∧
         3 ≤ (agentLoopAux jp bp turns fuel turn st).2.2.playbookSeq.length)) := by
  intro fuel
  induction fuel with
  | zero =>
    intro turn st
    simp [agentLoopAux]
  | succ n ih =>
    intro turn st
    cases hp : (turns turn).plan (plannerInputOf (turns turn) st) with
    | error e =>
      rw [aux_succ_planError jp bp turns n turn st e hp]
      simp [Event.isPlaybookPost]
    | ok plan =>
      cases hc : tryParseToolCall (jp plan) with
      | none =>
        rw [aux_succ_finalize jp bp turns n turn st plan hp hc]
        rw [show ((finalizeEvs st bp plan, LoopOut.final plan,
              { st with playbookSeq := st.playbookSeq ++ [("assistant", plan)] })).1
            = finalizeEvs st bp plan from rfl]
        rw [any_post_finalize]
        constructor
        · intro h
          have h1 : st.hadToolStep = true := by
            cases hb : st.hadToolStep
            · rw [hb] at h
              simp at h
            · rfl
          have h2 : 3 ≤ (st.playbookSeq ++ [("assistant", plan)]).length := by
            rw [h1] at h
            simpa using h
          exact ⟨⟨plan, rfl⟩, h1, h2⟩
        · intro ⟨_, h1, h2⟩
          dsimp only at h1 h2
          rw [h1]
          simpa using h2
      | some tc =>
        cases ht : (turns turn).tool tc.name (tc.args.getD []) with
        | error e =>
          rw [aux_succ_toolError jp bp turns n turn st plan tc e hp hc ht]
          rw [show ∀ (a : List Event) (b : LoopOut × LoopState), ((a, b)).1 = a from fun _ _ => rfl]
          rw [List.any_append, any_post_toolErr, Bool.false_or]
          exact ih (turn + 1) _
        | ok toolOut =>
          rw [aux_succ_toolOk jp bp turns n turn st plan tc toolOut hp hc ht]
          rw [show ∀ (a : List Event) (b : LoopOut × LoopState), ((a, b)).1 = a from fun _ _ => rfl]
          rw [List.any_append, any_post_toolOk, Bool.false_or]
          exact ih (turn + 1) _

theorem aux_finalDelta (jp : String → Option (List (String × Json))) (bp : String)
    (turns : Nat → TurnOracle) :
    ∀ fuel turn st p,
      (agentLoopAux jp bp turns fuel turn st).2.1 = LoopOut.final p →
      (deltas (agentLoopAux jp bp turns fuel turn st).1).getLast? =
        some ((agentLoopAux jp bp turns fuel turn st).2.2.prompt, p) ∧
      (∃ sfx, (agentLoopAux jp bp turns fuel turn st).2.2.prompt = st.prompt ++ sfx) ∧
      ((audits (agentLoopAux jp bp turns fuel turn st).1).count "TOOL_CALL" = 0 →
        (agentLoopAux jp bp turns fuel turn st).2.2.prompt = st.prompt) ∧
      ((audits (agentLoopAux jp bp turns fuel turn st).1).count "TOOL_CALL" ≠ 0 →
        st.prompt.length < (agentLoopAux jp bp turns fuel turn st).2.2.prompt.length) := by
  intro fuel
  induction fuel with
  | zero =>
    intro turn st p h
    simp [agentLoopAux] at h
  | succ n ih =>
    intro turn st p h
    cases hp : (turns turn).plan (plannerInputOf (turns turn) st) with
    | error e =>
      rw [aux_succ_planError jp bp turns n turn st e hp] at h ⊢
      simp at h
    | ok plan =>
      cases hc : tryParseToolCall (jp plan) with
      | none =>
        rw [aux_succ_finalize jp bp turns n turn st plan hp hc] at h ⊢
        have hpl : plan = p := by
          simpa using h
        subst hpl
        refine ⟨?_, ⟨"", (String.append_empty st.prompt).symm⟩, fun _ => rfl, ?_⟩
        · rw [show ((finalizeEvs st bp plan, LoopOut.final plan,
                { st with playbookSeq := st.playbookSeq ++ [("assistant", plan)] })).1
              = finalizeEvs st bp plan from rfl]
          rw [deltas_finalize]
          rfl
        · intro hne
          exfalso
          apply hne
          rw [show ((finalizeEvs st bp plan, LoopOut.final plan,
                { st with playbookSeq := st.playbookSeq ++ [("assistant", plan)] })).1
              = finalizeEvs st bp plan from rfl]
          rw [audits_finalize]
          decide
      | some tc =>
        cases ht : (turns turn).tool tc.name (tc.args.getD []) with
        | error e =>
          rw [aux_succ_toolError jp bp turns n turn st plan tc e hp hc ht] at h ⊢
          obtain ⟨hlast, ⟨sfx, hsfx⟩, _, _⟩ := ih (turn + 1)
            { st with prompt := st.prompt ++ "\n\nTool error: " ++ wrapToolErr tc.name e } p h
          have hcall : (audits ((toolErrEvs plan tc e
              ++ (agentLoopAux jp bp turns n (turn + 1)
                  { st with prompt := st.prompt ++ "\n\nTool error: "
                      ++ wrapToolErr tc.name e }).1,
              (agentLoopAux jp bp turns n (turn + 1)
                  { st with prompt := st.prompt ++ "\n\nTool error: "
                      ++ wrapToolErr tc.name e }).2)).1).count "TOOL_CALL" ≠ 0 := by
            rw [show ∀ (a : List Event) (b : LoopOut × LoopState), ((a, b)).1 = a
                from fun _ _ => rfl]
            rw [audits_append, audits_toolErr, List.count_append]
            have hone : (["PLAN_MODEL_RESPONSE", "TOOL_CALL", "TOOL_ERROR"] :
                List String).count "TOOL_CALL" = 1 := by decide
            omega
          refine ⟨?_, ?_, fun hc0 => absurd hc0 hcall, ?_⟩
          · rw [show ∀ (a : List Event) (b : LoopOut × LoopState), ((a, b)).1 = a
                from fun _ _ => rfl]
            rw [deltas_append, deltas_toolErr, List.nil_append]
            exact hlast
          · refine ⟨"\n\nTool error: " ++ wrapToolErr tc.name e ++ sfx, ?_⟩
            rw [show ((toolErrEvs plan tc e
                ++ (agentLoopAux jp bp turns n (turn + 1)
                    { st with prompt := st.prompt ++ "\n\nTool error: "
                        ++ wrapToolErr tc.name e }).1,
                (agentLoopAux jp bp turns n (turn + 1)
                    { st with prompt := st.prompt ++ "\n\nTool error: "
                        ++ wrapToolErr tc.name e }).2)).2.2
                = (agentLoopAux jp bp turns n (turn + 1)
                    { st with prompt := st.prompt ++ "\n\nTool error: "
                        ++ wrapToolErr tc.name e }).2.2 from rfl]
            rw [hsfx]
            simp only [String.append_assoc]
          · intro _
            rw [hsfx]
            show st.prompt.length
              < ((st.prompt ++ "\n\nTool error: " ++ wrapToolErr tc.name e) ++ sfx).length
            simp only [String.length_append]
            have hpos : 0 < ("\n\nTool error: " : String).length := by decide
            omega
        | ok toolOut =>
          rw [aux_succ_toolOk jp bp turns n turn st plan tc toolOut hp hc ht] at h ⊢
          obtain ⟨hlast, ⟨sfx, hsfx⟩, _, _⟩ := ih (turn + 1)
            { prompt := buildFollowupPrompt st.prompt plan toolOut,
              playbookSeq := st.playbookSeq ++ [("assistant", plan), ("tool_result", toolOut)],
              hadToolStep := true } p h
          have hcall : (audits ((toolOkEvs plan tc toolOut
              ++ (agentLoopAux jp bp turns n (turn + 1)
                  { prompt := buildFollowupPrompt st.prompt plan toolOut,
                    playbookSeq := st.playbookSeq
                      ++ [("assistant", plan), ("tool_result", toolOut)],
                    hadToolStep := true }).1,
              (agentLoopAux jp bp turns n (turn + 1)
                  { prompt := buildFollowupPrompt st.prompt plan toolOut,
                    playbookSeq := st.playbookSeq
                      ++ [("assistant", plan), ("tool_result", toolOut)],
                    hadToolStep := true }).2)).1).count "TOOL_CALL" ≠ 0 := by
            rw [show ∀ (a : List Event) (b : LoopOut × LoopState), ((a, b)).1 = a
                from fun _ _ => rfl]
            rw [audits_append, audits_toolOk, List.count_append]
            have hone : (["PLAN_MODEL_RESPONSE", "TOOL_CALL", "TOOL_RESULT"] :
                List String).count "TOOL_CALL" = 1 := by decide
            omega
          refine ⟨?_, ?_, fun hc0 => absurd hc0 hcall, ?_⟩
          · rw [show ∀ (a : List Event) (b : LoopOut × LoopState), ((a, b)).1 = a
                from fun _ _ => rfl]
            rw [deltas_append, deltas_toolOk]
            have hne : deltas (agentLoopAux jp bp turns n (turn + 1)
                { prompt := buildFollowupPrompt st.prompt plan toolOut,
                  playbookSeq := st.playbookSeq
                    ++ [("assistant", plan), ("tool_result", toolOut)],
                  hadToolStep := true }).1 ≠ [] := by
              intro hnil
              rw [hnil] at hlast
              simp at hlast
            rw [List.getLast?_append_of_ne_nil _ hne]
            exact hlast
          · refine ⟨"\n\n<plan>\n" ++ plan ++ "\n</plan>\n\n<tool_result>\n" ++ toolOut
              ++ "\n</tool_result>\n" ++ sfx, ?_⟩
            rw [show ((toolOkEvs plan tc toolOut
                ++ (agentLoopAux jp bp turns n (turn + 1)
                    { prompt := buildFollowupPrompt st.prompt plan toolOut,
                      playbookSeq := st.playbookSeq
                        ++ [("assistant", plan), ("tool_result", toolOut)],
                      hadToolStep := true }).1,
                (agentLoopAux jp bp turns n (turn + 1)
                    { prompt := buildFollowupPrompt st.prompt plan toolOut,
                      playbookSeq := st.playbookSeq
                        ++ [("assistant", plan), ("tool_result", toolOut)],
                      hadToolStep := true }).2)).2.2
                = (agentLoopAux jp bp turns n (turn + 1)
                    { prompt := buildFollowupPrompt st.prompt plan toolOut,
                      playbookSeq := st.playbookSeq
                        ++ [("assistant", plan), ("tool_result", toolOut)],
                      hadToolStep := true }).2.2 from rfl]
            rw [hsfx]
            simp only [buildFollowupPrompt, String.append_assoc]
          · intro _
            rw [hsfx]
            show st.prompt.length < (buildFollowupPrompt st.prompt plan toolOut ++ sfx).length
            simp only [buildFollowupPrompt, String.length_append]
            have hpos : 0 < ("\n\n<plan>\n" : String).length := by decide
            omega

theorem aux_bounded (jp : String → Option (List (String × Json))) (bp : String)
    (turns : Nat → TurnOracle)
    (hplan : ∀ t s, ∃ p, (turns t).plan s = Except.ok p ∧
      (tryParseToolCall (jp p)).isSome = true)
    (htool : ∀ t nm a, ∃ r, (turns t).tool nm a = Except.ok r) :
    ∀ fuel turn st, (agentLoopAux jp bp turns fuel turn st).2.1 = LoopOut.budget ∧
      (audits (agentLoopAux jp bp turns fuel turn st).1).count "PLAN_MODEL_RESPONSE" = fuel := by
  intro fuel
  induction fuel with
  | zero =>
    intro turn st
    exact ⟨rfl, rfl⟩
  | succ n ih =>
    intro turn st
    obtain ⟨p, hp, hip⟩ := hplan turn (plannerInputOf (turns turn) st)
    obtain ⟨tc, htc⟩ := Option.isSome_iff_exists.mp hip
    obtain ⟨r, hr⟩ := htool turn tc.name (tc.args.getD [])
    rw [aux_succ_toolOk jp bp turns n turn st p tc r hp htc hr]
    refine ⟨(ih (turn + 1) _).1, ?_⟩
    rw [show ∀ (a : List Event) (b : LoopOut × LoopState), ((a, b)).1 = a from fun _ _ => rfl]
    rw [audits_append, audits_toolOk, List.count_append, (ih (turn + 1) _).2]
    have hone : (["PLAN_MODEL_RESPONSE", "TOOL_CALL", "TOOL_RESULT"] : List String).count
        "PLAN_MODEL_RESPONSE" = 1 := by decide
    omega

/-- The initial driver state of a run. -/
def initState (prompt : String) : LoopState :=
  { prompt := prompt, playbookSeq := [("user", prompt)], hadToolStep := false }

theorem audits_full (o : Oracle) (m : Int) (prompt sid : String) :
    audits (agentLoopFull o m prompt sid).1 =
      "PLAN_START" :: audits (agentLoopAux o.jparse prompt o.turns (effMaxTurns m) 1
        (initState prompt)).1 := rfl

theorem notifs_full (o : Oracle) (m : Int) (prompt sid : String) :
    notifs (agentLoopFull o m prompt sid).1 =
      NotifMsg.status "STARTED" :: notifs (agentLoopAux o.jparse prompt o.turns (effMaxTurns m) 1
        (initState prompt)).1 := rfl

theorem deltas_full (o : Oracle) (m : Int) (prompt sid : String) :
    deltas (agentLoopFull o m prompt sid).1 =
      deltas (agentLoopAux o.jparse prompt o.turns (effMaxTurns m) 1 (initState prompt)).1 := rfl

theorem out_full (o : Oracle) (m : Int) (prompt sid : String) :
    (agentLoopFull o m prompt sid).2.1 =
      (agentLoopAux o.jparse prompt o.turns (effMaxTurns m) 1 (initState prompt)).2.1 := rfl

theorem state_full (o : Oracle) (m : Int) (prompt sid : String) :
    (agentLoopFull o m prompt sid).2.2 =
      (agentLoopAux o.jparse prompt o.turns (effMaxTurns m) 1 (initState prompt)).2.2 := rfl

theorem any_post_full (o : Oracle) (m : Int) (prompt sid : String) :
    (agentLoopFull o m prompt sid).1.any Event.isPlaybookPost =
      (agentLoopAux o.jparse prompt o.turns (effMaxTurns m) 1
        (initState prompt)).1.any Event.isPlaybookPost := rfl

theorem result_full (o : Oracle) (m : Int) (prompt sid : String) :
    (AgentLoop o m prompt sid).2 =
      (match (agentLoopFull o m prompt sid).2.1 with
       | LoopOut.final p => Except.ok p
       | LoopOut.failed e => Except.error e
       | LoopOut.budget => Except.ok maxTurnsSentinel) := rfl

theorem trace_full (o : Oracle) (m : Int) (prompt sid : String) :
    (AgentLoop o m prompt sid).1 = (agentLoopFull o m prompt sid).1 := rfl

/-! ## Claim theorems -/

/-- C1 (confirmed). For every oracle whose `GetPlan` answer always parses
as a valid tool call and whose sandbox dispatches always succeed, and any
configured `max_turns ≥ 1`, `AgentLoop` performs exactly `max_turns` loop
iterations (one `PLAN_MODEL_RESPONSE` audit row per iteration) and then
returns the literal budget sentinel with a nil error. -/
theorem agentLoop_turn_budget (o : Oracle) (m : Int) (prompt sid : String)
    (hm : 1 ≤ m)
    (hplan : ∀ t s, ∃ p, (o.turns t).plan s = Except.ok p ∧
      (tryParseToolCall (o.jparse p)).isSome = true)
    (htool : ∀ t nm a, ∃ r, (o.turns t).tool nm a = Except.ok r) :
    (AgentLoop o m prompt sid).2 = Except.ok maxTurnsSentinel ∧
    (audits (AgentLoop o m prompt sid).1).count "PLAN_MODEL_RESPONSE" = m.toNat := by
  have heff : effMaxTurns m = m.toNat := by
    unfold effMaxTurns
    rw [if_neg (by omega)]
  have hb := aux_bounded o.jparse prompt o.turns hplan htool (effMaxTurns m) 1 (initState prompt)
  constructor
  · rw [result_full, out_full, hb.1]
  · rw [trace_full, audits_full, List.count_cons, hb.2, heff]
    simp

/-- C2 (confirmed). `AgentLoop` returns a non-nil error exactly when some
reached turn's `GetPlan` RPC failed (equivalently: when a `PLAN_ERROR`
audit row exists — the row is written only at that failure). All other
collaborator failures (history fetch, RAG fetch, tool dispatch, memory
writes, audit writes, notification publishes) are absorbed, which the
arbitrary oracle quantification covers. On failure the `PLAN_ERROR` row is
the last audit row recorded before returning. -/
theorem agentLoop_error_iff_planError (o : Oracle) (m : Int) (prompt sid : String) :
    ((∃ e, (AgentLoop o m prompt sid).2 = Except.error e) ↔
      0 < (audits (AgentLoop o m prompt sid).1).count "PLAN_ERROR") ∧
    (∀ e, (AgentLoop o m prompt sid).2 = Except.error e →
      (audits (AgentLoop o m prompt sid).1).getLast? = some "PLAN_ERROR") := by
  have hT := aux_terminal o.jparse prompt o.turns (effMaxTurns m) 1 (initState prompt)
  obtain ⟨hS, hO⟩ := hT
  rw [result_full, out_full, trace_full, audits_full]
  cases ho : (agentLoopAux o.jparse prompt o.turns (effMaxTurns m) 1 (initState prompt)).2.1 with
  | budget =>
    rw [ho] at hO
    obtain ⟨hE, hR⟩ := hO
    constructor
    · constructor
      · rintro ⟨e, he⟩
        cases he
      · intro hcount
        rw [List.count_cons, hR] at hcount
        simp at hcount
    · intro e he
      cases he
  | final p =>
    rw [ho] at hO
    obtain ⟨pre, hpre, hE, hR⟩ := hO
    constructor
    · constructor
      · rintro ⟨e, he⟩
        cases he
      · intro hcount
        rw [List.count_cons, hpre, List.count_append, hR] at hcount
        simp at hcount
    · intro e he
      cases he
  | failed e0 =>
    rw [ho] at hO
    obtain ⟨pre, hpre, hE, hR⟩ := hO
    constructor
    · constructor
      · intro _
        rw [hpre]
        have hmem : "PLAN_ERROR" ∈ "PLAN_START" :: (pre ++ ["PLAN_ERROR"]) := by
          simp
        exact List.count_pos_iff.mpr hmem
      · intro _
        exact ⟨e0, rfl⟩
    · intro e he
      rw [hpre, show ("PLAN_START" :: (pre ++ ["PLAN_ERROR"]))
            = ("PLAN_START" :: pre) ++ ["PLAN_ERROR"] from rfl]
      rw [List.getLast?_append_of_ne_nil _ (by simp)]
      rfl

/-- C3 (amended). Every run's audit stream begins with exactly one
`PLAN_START`; at most one terminal row (`PLAN_END` or `PLAN_ERROR`)
appears and, when present, it is the final audit row; a run that ends by
exhausting the turn budget records no terminal row at all (the original
claim asserted a terminal row also for that run). -/
theorem audit_start_terminal (o : Oracle) (m : Int) (prompt sid : String) :
    ∃ rest, audits (agentLoopFull o m prompt sid).1 = "PLAN_START" :: rest ∧
      rest.count "PLAN_START" = 0 ∧
      rest.count "PLAN_END" + rest.count "PLAN_ERROR" ≤ 1 ∧
      ((agentLoopFull o m prompt sid).2.1 = LoopOut.budget →
        rest.count "PLAN_END" = 0 ∧ rest.count "PLAN_ERROR" = 0) ∧
      ((agentLoopFull o m prompt sid).2.1 ≠ LoopOut.budget →
        ∃ pre lastRow, rest = pre ++ [lastRow] ∧
          (lastRow = "PLAN_END" ∨ lastRow = "PLAN_ERROR") ∧
          pre.count "PLAN_END" = 0 ∧ pre.count "PLAN_ERROR" = 0) := by
  have hT := aux_terminal o.jparse prompt o.turns (effMaxTurns m) 1 (initState prompt)
  obtain ⟨hS, hO⟩ := hT
  refine ⟨audits (agentLoopAux o.jparse prompt o.turns (effMaxTurns m) 1 (initState prompt)).1,
    audits_full o m prompt sid, hS, ?_, ?_, ?_⟩
  · cases ho : (agentLoopAux o.jparse prompt o.turns (effMaxTurns m) 1 (initState prompt)).2.1 with
    | budget =>
      rw [ho] at hO
      rw [hO.1, hO.2]
      omega
    | final p =>
      rw [ho] at hO
      obtain ⟨pre, hpre, hE, hR⟩ := hO
      rw [hpre, List.count_append, List.count_append, hE, hR]
      have h1 : (["PLAN_END"] : List String).count "PLAN_END" = 1 := by decide
      have h2 : (["PLAN_END"] : List String).count "PLAN_ERROR" = 0 := by decide
      omega
    | failed e =>
      rw [ho] at hO
      obtain ⟨pre, hpre, hE, hR⟩ := hO
      rw [hpre, List.count_append, List.count_append, hE, hR]
      have h1 : (["PLAN_ERROR"] : List String).count "PLAN_END" = 0 := by decide
      have h2 : (["PLAN_ERROR"] : List String).count "PLAN_ERROR" = 1 := by decide
      omega
  · intro hb
    rw [out_full] at hb
    rw [hb] at hO
    exact hO
  · intro hb
    rw [out_full] at hb
    cases ho : (agentLoopAux o.jparse prompt o.turns (effMaxTurns m) 1 (initState prompt)).2.1 with
    | budget => exact absurd ho hb
    | final p =>
      rw [ho] at hO
      obtain ⟨pre, hpre, hE, hR⟩ := hO
      exact ⟨pre, "PLAN_END", hpre, Or.inl rfl, hE, hR⟩
    | failed e =>
      rw [ho] at hO
      obtain ⟨pre, hpre, hE, hR⟩ := hO
      exact ⟨pre, "PLAN_ERROR", hpre, Or.inr rfl, hE, hR⟩

/-- C5 (amended). Whenever a run finalizes with plan `p`, the last session
delta stored is `(user := wp, assistant := p)` where `wp` is the driver's
current working prompt — the final state's `prompt` — an extension of the
original request prompt that equals it exactly when no tool call occurred
before finalization (a preceding tool or tool-error turn strictly extends
the prompt, so equality fails). (The original claim asserted `user` equals
the original prompt also for runs with preceding tool turns.) -/
theorem finalize_delta_working_prompt (o : Oracle) (m : Int) (prompt sid p : String)
    (h : (agentLoopFull o m prompt sid).2.1 = LoopOut.final p) :
    (deltas (agentLoopFull o m prompt sid).1).getLast? =
      some ((agentLoopFull o m prompt sid).2.2.prompt, p) ∧
    (∃ sfx, (agentLoopFull o m prompt sid).2.2.prompt = prompt ++ sfx) ∧
    ((agentLoopFull o m prompt sid).2.2.prompt = prompt ↔
      (audits (agentLoopFull o m prompt sid).1).count "TOOL_CALL" = 0) := by
  rw [out_full] at h
  obtain ⟨h1, h2, h3, h4⟩ := aux_finalDelta o.jparse prompt o.turns (effMaxTurns m) 1
    (initState prompt) p h
  have hcnt : (audits (agentLoopFull o m prompt sid).1).count "TOOL_CALL" =
      (audits (agentLoopAux o.jparse prompt o.turns (effMaxTurns m) 1
        (initState prompt)).1).count "TOOL_CALL" := by
    rw [audits_full o m prompt sid]
    simp [List.count_cons]
  refine ⟨?_, ?_, ?_⟩
  · rw [deltas_full, state_full]
    exact h1
  · rw [state_full]
    exact h2
  · rw [state_full, hcnt]
    constructor
    · intro heq
      by_contra hne
      have h5 := h4 hne
      rw [heq] at h5
      have hIP : (initState prompt).prompt = prompt := rfl
      rw [hIP] at h5
      exact absurd h5 (lt_irrefl _)
    · exact h3

/-- C6 (confirmed). A `POST /memory/playbook` is issued exactly when the
run finalizes with `had_tool_step` true and the (final) playbook sequence
has length at least 3; in particular, with `had_tool_step` false no
playbook POST happens. -/
theorem playbook_post_iff (o : Oracle) (m : Int) (prompt sid : String) :
    ((agentLoopFull o m prompt sid).1.any Event.isPlaybookPost = true ↔
      ((∃ p, (agentLoopFull o m prompt sid).2.1 = LoopOut.final p) ∧
       (agentLoopFull o m prompt sid).2.2.hadToolStep = true ∧
       3 ≤ (agentLoopFull o m prompt sid).2.2.playbookSeq.length)) ∧
    ((agentLoopFull o m prompt sid).2.2.hadToolStep = false →
      (agentLoopFull o m prompt sid).1.any Event.isPlaybookPost = false) := by
  have hp := aux_playbook o.jparse prompt o.turns (effMaxTurns m) 1 (initState prompt)
  have h1 : ((agentLoopFull o m prompt sid).1.any Event.isPlaybookPost = true ↔
      ((∃ p, (agentLoopFull o m prompt sid).2.1 = LoopOut.final p) ∧
       (agentLoopFull o m prompt sid).2.2.hadToolStep = true ∧
       3 ≤ (agentLoopFull o m prompt sid).2.2.playbookSeq.length)) := by
    rw [any_post_full, out_full, state_full]
    exact hp
  refine ⟨h1, ?_⟩
  intro hfalse
  cases ha : (agentLoopFull o m prompt sid).1.any Event.isPlaybookPost with
  | false => rfl
  | true =>
    have := (h1.mp ha).2.1
    rw [hfalse] at this
    cases this

/-- C7 (confirmed). Per run, the notification stream is `STARTED`, then —
only when the run finalizes successfully — the result message followed by
the `COMPLETED` lifecycle message; budget-exhausted (and plan-error) runs
publish neither a result nor `COMPLETED`. -/
theorem notification_order (o : Oracle) (m : Int) (prompt sid : String) :
    notifs (agentLoopFull o m prompt sid).1 =
      NotifMsg.status "STARTED" ::
        (match (agentLoopFull o m prompt sid).2.1 with
         | LoopOut.final p => [NotifMsg.result p, NotifMsg.status "COMPLETED"]
         | _ => []) := by
  have h := aux_notifs o.jparse prompt o.turns (effMaxTurns m) 1 (initState prompt)
  rw [notifs_full, out_full, h]

/-- C9 (confirmed). On a turn whose sandbox dispatch returns an RPC error,
the driver records `PLAN_MODEL_RESPONSE` and `TOOL_CALL` before the
dispatch, then exactly one `TOOL_ERROR` row, and its only state change is
appending `"\n\nTool error: "` plus the error text to the working prompt:
the playbook sequence and the `had_tool_step` flag are carried over
unchanged, and the turn stores no session delta, posts no playbook, and
publishes no notification. -/
theorem toolError_turn_frame (jp : String → Option (List (String × Json))) (bp : String)
    (o : TurnOracle) (st : LoopState) (plan : String) (tc : ToolCall) (e : String)
    (h : o.plan (plannerInputOf o st) = Except.ok plan)
    (hc : tryParseToolCall (jp plan) = some tc)
    (ht : o.tool tc.name (tc.args.getD []) = Except.error e) :
    runTurn jp bp o st =
      ([Event.planModelResponse plan, Event.toolCall tc.name tc.args,
        Event.toolError tc.name (wrapToolErr tc.name e)],
       TurnStep.next { prompt := st.prompt ++ "\n\nTool error: " ++ wrapToolErr tc.name e,
                       playbookSeq := st.playbookSeq,
                       hadToolStep := st.hadToolStep }) :=
  runTurn_toolError jp bp o st plan tc e h hc ht

theorem goTrimSpace_empty : goTrimSpace "" = "" := rfl

/-- C4 (amended). The interpreter returns no tool call when the text is
not a JSON object, when there is no object-typed `tool` field, or when
`tool.name` is missing, not a string, or trims to the empty string under
whitespace trimming (the original claim required only the exact empty
string). Otherwise it returns the (untrimmed) name, `raw` is the parsed
object, and `args` is `tool.args` when present and object-typed and
otherwise the Go nil map — which serializes as `null`, not as the empty
mapping the original claim asserted. -/
theorem tryParseToolCall_characterization (parsed : Option (List (String × Json))) :
    ((tryParseToolCall parsed).isSome = true ↔
      ∃ raw toolObj nm, parsed = some raw ∧ lookup raw "tool" = some (Json.obj toolObj) ∧
        lookup toolObj "name" = some (Json.str nm) ∧ goTrimSpace nm ≠ "") ∧
    (∀ tc, tryParseToolCall parsed = some tc →
      ∃ raw toolObj, parsed = some raw ∧ lookup raw "tool" = some (Json.obj toolObj) ∧
        lookup toolObj "name" = some (Json.str tc.name) ∧ goTrimSpace tc.name ≠ "" ∧
        tc.args = argsOfTool toolObj ∧ tc.raw = raw) := by
  cases parsed with
  | none =>
    refine ⟨?_, ?_⟩
    · simp [tryParseToolCall]
    · intro tc h
      simp [tryParseToolCall] at h
  | some raw =>
    cases hTool : lookup raw "tool" with
    | none =>
      refine ⟨?_, ?_⟩
      · simp [tryParseToolCall, hTool]
      · intro tc h
        simp [tryParseToolCall, hTool] at h
    | some j =>
      cases j with
      | null =>
        refine ⟨?_, ?_⟩
        · simp [tryParseToolCall, hTool]
        · intro tc h
          simp [tryParseToolCall, hTool] at h
      | bool b =>
        refine ⟨?_, ?_⟩
        · simp [tryParseToolCall, hTool]
        · intro tc h
          simp [tryParseToolCall, hTool] at h
      | num i =>
        refine ⟨?_, ?_⟩
        · simp [tryParseToolCall, hTool]
        · intro tc h
          simp [tryParseToolCall, hTool] at h
      | str s =>
        refine ⟨?_, ?_⟩
        · simp [tryParseToolCall, hTool]
        · intro tc h
          simp [tryParseToolCall, hTool] at h
      | arr a =>
        refine ⟨?_, ?_⟩
        · simp [tryParseToolCall, hTool]
        · intro tc h
          simp [tryParseToolCall, hTool] at h
      | obj toolObj =>
        cases hName : lookup toolObj "name" with
        | none =>
          refine ⟨?_, ?_⟩
          · simp [tryParseToolCall, hTool, hName, goTrimSpace_empty]
          · intro tc h
            simp [tryParseToolCall, hTool, hName, goTrimSpace_empty] at h
        | some nj =>
          cases nj with
          | null =>
            refine ⟨?_, ?_⟩
            · simp [tryParseToolCall, hTool, hName, goTrimSpace_empty]
            · intro tc h
              simp [tryParseToolCall, hTool, hName, goTrimSpace_empty] at h
          | bool b =>
            refine ⟨?_, ?_⟩
            · simp [tryParseToolCall, hTool, hName, goTrimSpace_empty]
            · intro tc h
              simp [tryParseToolCall, hTool, hName, goTrimSpace_empty] at h
          | num i =>
            refine ⟨?_, ?_⟩
            · simp [tryParseToolCall, hTool, hName, goTrimSpace_empty]
            · intro tc h
              simp [tryParseToolCall, hTool, hName, goTrimSpace_empty] at h
          | arr a =>
            refine ⟨?_, ?_⟩
            · simp [tryParseToolCall, hTool, hName, goTrimSpace_empty]
            · intro tc h
              simp [tryParseToolCall, hTool, hName, goTrimSpace_empty] at h
          | obj a =>
            refine ⟨?_, ?_⟩
            · simp [tryParseToolCall, hTool, hName, goTrimSpace_empty]
            · intro tc h
              simp [tryParseToolCall, hTool, hName, goTrimSpace_empty] at h
          | str s =>
            by_cases htr : goTrimSpace s = ""
            · refine ⟨?_, ?_⟩
              · simp [tryParseToolCall, hTool, hName, htr]
              · intro tc h
                simp [tryParseToolCall, hTool, hName, htr] at h
            · refine ⟨?_, ?_⟩
              · constructor
                · intro _
                  exact ⟨raw, toolObj, s, rfl, hTool, hName, htr⟩
                · intro _
                  simp [tryParseToolCall, hTool, hName, htr]
              · intro tc h
                simp only [tryParseToolCall, hTool, hName] at h
                rw [if_neg htr] at h
                injection h with h
                subst h
                exact ⟨raw, toolObj, rfl, hTool, hName, htr, rfl, rfl⟩

/-! ## C8: planner-prompt section structure -/

theorem concatAll_if_filter {α : Type} (p : α → Bool) (f : α → String) (l : List α) :
    concatAll (l.map fun x => if p x then f x else "") =
      concatAll ((l.filter p).map f) := by
  induction l with
  | nil => rfl
  | cons a t ih =>
    cases hpa : p a
    · simp [concatAll, List.filter_cons, hpa, ih, String.empty_append]
    · simp [concatAll, List.filter_cons, hpa, ih]

/-- C8 (amended). The planner input always consists of exactly the three
labeled sections in order — `<session_history>`, `<rag_context>`,
`<user_prompt>` — with all tags present even when the contents are empty;
the history section renders one `role: content` line per message whose
role or content attribute is a non-empty string (messages with both empty
are skipped — the original claim asserted one line for every message). -/
theorem buildPlannerPrompt_sections (userPrompt : String)
    (history : List (List (String × Json))) (rag : Option (List RagMatch)) :
    buildPlannerPrompt userPrompt history rag =
      "<session_history>\n"
        ++ concatAll ((history.filter msgVisible).map histLine)
        ++ "</session_history>\n\n"
        ++ "<rag_context>\n"
        ++ (match rag with
            | some ms => concatAll (ms.map ragBlock)
            | none => "")
        ++ "</rag_context>\n\n"
        ++ "<user_prompt>\n"
        ++ userPrompt
        ++ "\n</user_prompt>\n" := by
  unfold buildPlannerPrompt
  rw [concatAll_if_filter msgVisible histLine history]

/-- The planner-prompt rendering the original claim describes: one
`role: content` line for every history message, unconditionally. Used
only to exhibit where `buildPlannerPrompt` differs from the claim. -/
def plannerPromptClaim (userPrompt : String) (history : List (List (String × Json)))
    (rag : Option (List RagMatch)) : String :=
  "<session_history>\n"
    ++ concatAll (history.map histLine)
    ++ "</session_history>\n\n"
    ++ "<rag_context>\n"
    ++ (match rag with
        | some ms => concatAll (ms.map ragBlock)
        | none => "")
    ++ "</rag_context>\n\n"
    ++ "<user_prompt>\n"
    ++ userPrompt
    ++ "\n</user_prompt>\n"

/-! ## C10: model-gateway plan normalization shape -/

theorem normalizeJSON_shape (decode : String → Option DecodedPlan)
    (provider reqPrompt raw : String) (j : Json)
    (h : normalizeJSON decode provider reqPrompt raw = some j) :
    ∃ steps : List String, steps ≠ [] ∧
      j = Json.obj [("model_type", Json.str provider),
                    ("steps", Json.arr (steps.map Json.str)),
                    ("prompt", Json.str reqPrompt)] := by
  simp only [normalizeJSON] at h
  split at h
  · split at h
    · exact absurd h (by simp)
    · split at h
      · exact absurd h (by simp)
      · injection h with h
        subst h
        rename_i d _ hlen
        refine ⟨d.steps, ?_, rfl⟩
        intro hnil
        apply hlen
        rw [hnil]
        rfl
  · exact absurd h (by simp)

/-- C10 (confirmed). Whenever `GetPlan` returns without error, the plan it
returns is (the serialization of) a JSON object whose `model_type` is a
string, whose `steps` is a non-empty array of strings, and whose `prompt`
equals the request prompt — via raw-JSON normalization, fence-stripped
normalization, or the fallback wrapper, for every possible model output
and every behavior of the stdlib JSON decoder. -/
theorem getPlan_shape (decode : String → Option DecodedPlan)
    (provider reqPrompt content : String) :
    ∃ fields steps,
      getPlanNormalize decode provider reqPrompt content = Json.obj fields ∧
      lookup fields "model_type" = some (Json.str provider) ∧
      lookup fields "steps" = some (Json.arr (steps.map Json.str)) ∧
      steps ≠ [] ∧
      lookup fields "prompt" = some (Json.str reqPrompt) := by
  simp only [getPlanNormalize]
  split
  next j hj =>
    obtain ⟨steps, hne, hj'⟩ := normalizeJSON_shape decode provider reqPrompt _ j hj
    subst hj'
    exact ⟨_, steps, rfl, rfl, rfl, hne, rfl⟩
  next hj =>
    split
    next j hj2 =>
      obtain ⟨steps, hne, hj'⟩ := normalizeJSON_shape decode provider reqPrompt _ j hj2
      subst hj'
      exact ⟨_, steps, rfl, rfl, rfl, hne, rfl⟩
    next hj2 =>
      exact ⟨_, [goTrimSpace content], rfl, rfl, rfl, by simp, rfl⟩

/-! ## Concrete runs for witnesses and counterexamples -/

/-- A model reply that is a valid tool call. -/
def demoToolPlanStr : String :=
  "\x7b\"tool\":\x7b\"name\":\"search\",\"args\":\x7b\"q\":\"foo\"\x7d\x7d\x7d"

/-- The JSON object `demoToolPlanStr` denotes. -/
def demoToolObj : List (String × Json) :=
  [("tool", Json.obj [("name", Json.str "search"),
                      ("args", Json.obj [("q", Json.str "foo")])])]

/-- The stdlib JSON parse restricted to the strings the demo runs
encounter: `demoToolPlanStr` is an object; the other model outputs
(`"All done."`) are not valid JSON objects. -/
def demoParse (s : String) : Option (List (String × Json)) :=
  if s = demoToolPlanStr then some demoToolObj else none

/-- The re-serialized sandbox output of the demo tool call. -/
def demoToolOut : String :=
  "\x7b\"status\":\"ok\",\"stdout\":\"bar\",\"stderr\":\"\"\x7d"

def demoToolTurn : TurnOracle :=
  { history := Except.ok [],
    rag := fun _ => Except.ok [],
    plan := fun _ => Except.ok demoToolPlanStr,
    tool := fun _ _ => Except.ok demoToolOut }

def demoFinalTurn : TurnOracle :=
  { history := Except.ok [],
    rag := fun _ => Except.ok [],
    plan := fun _ => Except.ok "All done.",
    tool := fun _ _ => Except.ok demoToolOut }

def demoPlanErrorTurn : TurnOracle :=
  { history := Except.ok [],
    rag := fun _ => Except.ok [],
    plan := fun _ => Except.error "rpc unavailable",
    tool := fun _ _ => Except.ok demoToolOut }

def demoToolErrTurn : TurnOracle :=
  { history := Except.ok [],
    rag := fun _ => Except.ok [],
    plan := fun _ => Except.ok demoToolPlanStr,
    tool := fun _ _ => Except.error "sandbox down" }

def demoAlwaysToolOracle : Oracle :=
  { jparse := demoParse, turns := fun _ => demoToolTurn }

def demoOneToolOracle : Oracle :=
  { jparse := demoParse, turns := fun t => if t = 1 then demoToolTurn else demoFinalTurn }

def demoNoToolOracle : Oracle :=
  { jparse := demoParse, turns := fun _ => demoFinalTurn }

def demoPlanErrorOracle : Oracle :=
  { jparse := demoParse, turns := fun _ => demoPlanErrorTurn }

def demoSt : LoopState :=
  { prompt := "hello", playbookSeq := [("user", "hello")], hadToolStep := false }

def demoTc : ToolCall :=
  { name := "search", args := some [("q", Json.str "foo")], raw := demoToolObj }

/-! ## Counterexamples -/

/-- C3 counterexample: with `max_turns = 1` and a model that always
returns a valid tool call, the audit stream of the budget-exhausted run is
`PLAN_START, PLAN_MODEL_RESPONSE, TOOL_CALL, TOOL_RESULT` — it does not
end with `PLAN_END` or `PLAN_ERROR`, contradicting the claim that every
run's audit stream ends with a terminal event. -/
theorem audit_terminal_counterexample :
    audits (agentLoopFull demoAlwaysToolOracle 1 "hello" "s1").1 =
      ["PLAN_START", "PLAN_MODEL_RESPONSE", "TOOL_CALL", "TOOL_RESULT"] ∧
    (AgentLoop demoAlwaysToolOracle 1 "hello" "s1").2 = Except.ok maxTurnsSentinel ∧
    (audits (agentLoopFull demoAlwaysToolOracle 1 "hello" "s1").1).getLast? ≠ some "PLAN_END" ∧
    (audits (agentLoopFull demoAlwaysToolOracle 1 "hello" "s1").1).getLast? ≠
      some "PLAN_ERROR" := by
  refine ⟨by decide, rfl, by decide, by decide⟩

/-- C4 counterexample: for the parsed plan object with `tool.name = " "` —
present, a string, and non-empty — the interpreter returns no tool call
(the name trims to empty), contradicting the claim's case split. -/
theorem tryParseToolCall_counterexample :
    lookup [("name", Json.str " ")] "name" = some (Json.str " ") ∧
    (" " : String) ≠ "" ∧
    tryParseToolCall (some [("tool", Json.obj [("name", Json.str " ")])]) = none :=
  ⟨rfl, by decide, rfl⟩

/-- C5 counterexample: in a run with one successful tool turn before
finalizing, the finalize session delta's `user` is the mutated working
prompt (original prompt plus the `<plan>`/`<tool_result>` feedback block),
not the original request prompt `"hello"`. -/
theorem finalize_delta_counterexample :
    (agentLoopFull demoOneToolOracle 3 "hello" "s1").2.1 = LoopOut.final "All done." ∧
    (deltas (agentLoopFull demoOneToolOracle 3 "hello" "s1").1).getLast? =
      some (buildFollowupPrompt "hello" demoToolPlanStr demoToolOut, "All done.") ∧
    buildFollowupPrompt "hello" demoToolPlanStr demoToolOut ≠ "hello" := by
  refine ⟨by decide, by decide, by decide⟩

/-- C8 counterexample: a history containing one message with neither role
nor content renders no `role: content` line, so the built prompt differs
from the rendering described by the claim (one line per message). -/
theorem plannerPrompt_counterexample :
    buildPlannerPrompt "p" [[]] none ≠ plannerPromptClaim "p" [[]] none := by
  decide

/-! ## Witnesses -/

theorem agentLoop_turn_budget_witness :
    (AgentLoop demoAlwaysToolOracle 2 "hello" "s1").2 = Except.ok maxTurnsSentinel ∧
    (audits (AgentLoop demoAlwaysToolOracle 2 "hello" "s1").1).count "PLAN_MODEL_RESPONSE" =
      (2 : Int).toNat :=
  agentLoop_turn_budget demoAlwaysToolOracle 2 "hello" "s1" (by decide)
    (fun _ _ => ⟨demoToolPlanStr, rfl, by decide⟩)
    (fun _ _ _ => ⟨demoToolOut, rfl⟩)

theorem agentLoop_error_iff_witness :
    (∃ e, (AgentLoop demoPlanErrorOracle 3 "x" "s").2 = Except.error e) ∧
    (audits (AgentLoop demoPlanErrorOracle 3 "x" "s").1).getLast? = some "PLAN_ERROR" :=
  ⟨(agentLoop_error_iff_planError demoPlanErrorOracle 3 "x" "s").1.mpr (by decide),
   (agentLoop_error_iff_planError demoPlanErrorOracle 3 "x" "s").2 "GetPlan: rpc unavailable" rfl⟩

theorem audit_start_terminal_witness :
    ∃ rest, audits (agentLoopFull demoOneToolOracle 3 "w" "s").1 = "PLAN_START" :: rest ∧
      rest.count "PLAN_START" = 0 ∧
      rest.count "PLAN_END" + rest.count "PLAN_ERROR" ≤ 1 ∧
      ((agentLoopFull demoOneToolOracle 3 "w" "s").2.1 = LoopOut.budget →
        rest.count "PLAN_END" = 0 ∧ rest.count "PLAN_ERROR" = 0) ∧
      ((agentLoopFull demoOneToolOracle 3 "w" "s").2.1 ≠ LoopOut.budget →
        ∃ pre lastRow, rest = pre ++ [lastRow] ∧
          (lastRow = "PLAN_END" ∨ lastRow = "PLAN_ERROR") ∧
          pre.count "PLAN_END" = 0 ∧ pre.count "PLAN_ERROR" = 0) :=
  audit_start_terminal demoOneToolOracle 3 "w" "s"

theorem tryParseToolCall_characterization_witness :
    (tryParseToolCall (some demoToolObj)).isSome = true :=
  (tryParseToolCall_characterization (some demoToolObj)).1.mpr
    ⟨demoToolObj,
     [("name", Json.str "search"), ("args", Json.obj [("q", Json.str "foo")])],
     "search", rfl, rfl, rfl, by decide⟩

theorem finalize_delta_witness :
    (deltas (agentLoopFull demoNoToolOracle 3 "hello" "s1").1).getLast? =
      some ((agentLoopFull demoNoToolOracle 3 "hello" "s1").2.2.prompt, "All done.") ∧
    (∃ sfx, (agentLoopFull demoNoToolOracle 3 "hello" "s1").2.2.prompt = "hello" ++ sfx) ∧
    ((agentLoopFull demoNoToolOracle 3 "hello" "s1").2.2.prompt = "hello" ↔
      (audits (agentLoopFull demoNoToolOracle 3 "hello" "s1").1).count "TOOL_CALL" = 0) :=
  finalize_delta_working_prompt demoNoToolOracle 3 "hello" "s1" "All done." (by decide)

theorem playbook_post_iff_witness :
    (agentLoopFull demoNoToolOracle 3 "hi" "s2").1.any Event.isPlaybookPost = false :=
  (playbook_post_iff demoNoToolOracle 3 "hi" "s2").2 (by decide)

theorem notification_order_witness :
    notifs (agentLoopFull demoOneToolOracle 3 "hello" "s3").1 =
      NotifMsg.status "STARTED" ::
        (match (agentLoopFull demoOneToolOracle 3 "hello" "s3").2.1 with
         | LoopOut.final p => [NotifMsg.result p, NotifMsg.status "COMPLETED"]
         | _ => []) :=
  notification_order demoOneToolOracle 3 "hello" "s3"

theorem toolError_turn_frame_witness :
    runTurn demoParse "hello" demoToolErrTurn demoSt =
      ([Event.planModelResponse demoToolPlanStr,
        Event.toolCall "search" (some [("q", Json.str "foo")]),
        Event.toolError "search" (wrapToolErr "search" "sandbox down")],
       TurnStep.next
         { prompt := "hello" ++ "\n\nTool error: " ++ wrapToolErr "search" "sandbox down",
           playbookSeq := [("user", "hello")],
           hadToolStep := false }) :=
  toolError_turn_frame demoParse "hello" demoToolErrTurn demoSt demoToolPlanStr demoTc
    "sandbox down" rfl rfl rfl

theorem getPlan_shape_witness :
    ∃ fields steps,
      getPlanNormalize (fun _ => none) "openrouter" "hi" "hello world" = Json.obj fields ∧
      lookup fields "model_type" = some (Json.str "openrouter") ∧
      lookup fields "steps" = some (Json.arr (steps.map Json.str)) ∧
      steps ≠ [] ∧
      lookup fields "prompt" = some (Json.str "hi") :=
  getPlan_shape (fun _ => none) "openrouter" "hi" "hello world"

end PagiCore
